import Mathlib

/-!
Verification of `python/pyarrow/serialization.py`: the registration script for
pyarrow's extensible, type-directed serialization registry.

The file has two layers.

1. Codec functions.  The concrete (de)serializers defined in the source file
   (`_serialize_ordered_dict`, `_deserialize_ordered_dict`,
   `_serialize_default_dict`, `_deserialize_default_dict`,
   `_serialize_numpy_array_list`, `_deserialize_numpy_array_list`, and the
   `str`/`int` lambdas registered for `int`) are embedded as Lean functions.
   Python `dict`/`OrderedDict` values are embedded as association lists in
   insertion order whose keys are pairwise distinct; construction of a dict
   from an iterable of pairs keeps the position of the first occurrence of a
   key and the value of its last occurrence, as in Python.  Python's decimal
   `str`/`int` conversions are embedded as explicit digit-list printing and
   parsing.  Numpy arrays are embedded as uniformly nested lists carrying a
   dtype string; `ndarray.tolist` returns the nesting and `np.array` rebuilds
   an array from a nesting after inferring and checking its shape.

2. The registry.  `SerializationContext` (`register_type`, `clone`, dispatch
   by runtime type with ancestry fallback, deserialization lookup by tag)
   lives in `pyarrow.lib`, outside the source file; it is modelled from the
   spec as a store of independently mutable registries addressed by
   references, so that clone isolation is a real statement about mutation and
   not a triviality of pure values.  The module-level script of
   `serialization.py` (register default handlers, clone, register pandas
   handlers on each context, re-register `np.ndarray` on the clone) is then
   replayed against that model.
-/

/-! ### Python dicts as insertion-ordered association lists -/

/-- A single step of Python dict construction: `d[k] = v`.  If the key is
already present the pair at its position is replaced (the position of the
first insertion is kept), otherwise the pair is appended. -/
def dictInsertPair {α : Type u} {β : Type v} [DecidableEq α]
    (m : List (α × β)) (p : α × β) : List (α × β) :=
  if m.any (fun q => decide (q.1 = p.1)) then
    m.map (fun q => if q.1 = p.1 then p else q)
  else
    m ++ [p]

/-- Python dict construction from an iterable of key-value pairs
(`dict(pairs)`, `OrderedDict(pairs)`, `defaultdict(f, pairs)`): insert the
pairs left to right. -/
def dictFromPairs {α : Type u} {β : Type v} [DecidableEq α]
    (l : List (α × β)) : List (α × β) :=
  l.foldl dictInsertPair []

theorem dictInsertPair_of_not_mem {α : Type u} {β : Type v} [DecidableEq α]
    (m : List (α × β)) (p : α × β) (h : p.1 ∉ m.map Prod.fst) :
    dictInsertPair m p = m ++ [p] := by
  have hany : m.any (fun q => decide (q.1 = p.1)) = false := by
    simp only [List.any_eq_false, decide_eq_false_iff_not]
    intro q hq hqp
    exact h (of_decide_eq_true hqp ▸ List.mem_map_of_mem Prod.fst hq)
  simp [dictInsertPair, hany]

theorem foldl_dictInsertPair_of_nodup {α : Type u} {β : Type v} [DecidableEq α]
    (l acc : List (α × β)) (h : ((acc ++ l).map Prod.fst).Nodup) :
    l.foldl dictInsertPair acc = acc ++ l := by
  induction l generalizing acc with
  | nil => simp
  | cons p t ih =>
    have hnotmem : p.1 ∉ acc.map Prod.fst := by
      have := h
      simp only [List.map_append, List.nodup_append] at this
      intro hmem
      exact this.2.2 hmem (by simp)
    rw [List.foldl_cons, dictInsertPair_of_not_mem acc p hnotmem]
    have h' : (((acc ++ [p]) ++ t).map Prod.fst).Nodup := by
      simpa [List.append_assoc] using h
    rw [ih (acc ++ [p]) h']
    simp

/-- Constructing a dict from pairs whose keys are pairwise distinct returns
exactly those pairs, in order. -/
theorem dictFromPairs_of_nodup {α : Type u} {β : Type v} [DecidableEq α]
    (l : List (α × β)) (h : (l.map Prod.fst).Nodup) :
    dictFromPairs l = l := by
  simpa using foldl_dictInsertPair_of_nodup l [] (by simpa using h)

theorem map_fst_dictInsertPair {α : Type u} {β : Type v} [DecidableEq α]
    (m : List (α × β)) (p : α × β) :
    (dictInsertPair m p).map Prod.fst =
      if p.1 ∈ m.map Prod.fst then m.map Prod.fst
      else m.map Prod.fst ++ [p.1] := by
  by_cases hmem : p.1 ∈ m.map Prod.fst
  · have hany : m.any (fun q => decide (q.1 = p.1)) = true := by
      simp only [List.any_eq_true, decide_eq_true_eq]
      obtain ⟨q, hq, hq1⟩ := List.mem_map.mp hmem
      exact ⟨q, hq, hq1⟩
    rw [if_pos hmem]
    simp only [dictInsertPair, hany, if_true, List.map_map]
    apply List.map_congr_left
    intro q _
    by_cases hq : q.1 = p.1 <;> simp [hq]
  · rw [if_neg hmem, dictInsertPair_of_not_mem m p hmem]
    simp

theorem nodup_map_fst_dictInsertPair {α : Type u} {β : Type v} [DecidableEq α]
    (m : List (α × β)) (p : α × β) (h : (m.map Prod.fst).Nodup) :
    ((dictInsertPair m p).map Prod.fst).Nodup := by
  rw [map_fst_dictInsertPair]
  by_cases hmem : p.1 ∈ m.map Prod.fst
  · simpa [hmem] using h
  · rw [if_neg hmem]
    refine List.nodup_append.mpr ⟨h, List.nodup_singleton _, ?_⟩
    intro a ha hap
    rw [List.mem_singleton] at hap
    exact hmem (hap ▸ ha)

/-- Keys of a dict built from arbitrary pairs are pairwise distinct. -/
theorem nodup_map_fst_dictFromPairs {α : Type u} {β : Type v} [DecidableEq α]
    (l : List (α × β)) : ((dictFromPairs l).map Prod.fst).Nodup := by
  suffices h : ∀ acc : List (α × β), (acc.map Prod.fst).Nodup →
      ((l.foldl dictInsertPair acc).map Prod.fst).Nodup by
    exact h [] (by simp)
  induction l with
  | nil => intro acc hacc; simpa using hacc
  | cons p t ih =>
    intro acc hacc
    exact ih (dictInsertPair acc p) (nodup_map_fst_dictInsertPair acc p hacc)

/-- A Python `OrderedDict` (equally, a Python 3.7+ `dict`): key-value pairs in
insertion order, keys pairwise distinct.  `keys()` and `values()` iterate in
that order. -/
structure PyDict (α : Type u) (β : Type v) where
  entries : List (α × β)
  nodup_keys : (entries.map Prod.fst).Nodup

theorem PyDict.entries_inj {α : Type u} {β : Type v} {d d' : PyDict α β}
    (h : d.entries = d'.entries) : d = d' := by
  cases d; cases d'; simp_all

/-- `OrderedDict(pairs)`. -/
def PyDict.fromPairs {α : Type u} {β : Type v} [DecidableEq α]
    (l : List (α × β)) : PyDict α β :=
  ⟨dictFromPairs l, nodup_map_fst_dictFromPairs l⟩

/-- `list(obj.keys())`. -/
def PyDict.keys {α : Type u} {β : Type v} (d : PyDict α β) : List α :=
  d.entries.map Prod.fst

/-- `list(obj.values())`. -/
def PyDict.values {α : Type u} {β : Type v} (d : PyDict α β) : List β :=
  d.entries.map Prod.snd

/-! ### The `OrderedDict` codec (source lines 78-82) -/

/-- `_serialize_ordered_dict(obj) = (list(obj.keys()), list(obj.values()))`. -/
def _serialize_ordered_dict {α : Type u} {β : Type v} (obj : PyDict α β) :
    List α × List β :=
  (obj.keys, obj.values)

/-- `_deserialize_ordered_dict(data) = OrderedDict(zip(data[0], data[1]))`. -/
def _deserialize_ordered_dict {α : Type u} {β : Type v} [DecidableEq α]
    (data : List α × List β) : PyDict α β :=
  PyDict.fromPairs (data.1.zip data.2)

theorem zip_keys_values {α : Type u} {β : Type v} (d : PyDict α β) :
    d.keys.zip d.values = d.entries := by
  unfold PyDict.keys PyDict.values
  rw [List.zip_map']
  simp

theorem deserialize_serialize_ordered_dict {α : Type u} {β : Type v}
    [DecidableEq α] (d : PyDict α β) :
    _deserialize_ordered_dict (_serialize_ordered_dict d) = d := by
  apply PyDict.entries_inj
  unfold _deserialize_ordered_dict _serialize_ordered_dict PyDict.fromPairs
  simp only [zip_keys_values]
  exact dictFromPairs_of_nodup d.entries d.nodup_keys

/-- `{"a": 1, "b": 2}` as an `OrderedDict`. -/
def exampleOrderedDict : PyDict String Nat :=
  ⟨[("a", 1), ("b", 2)], by decide⟩

/-! ### The `defaultdict` codec (source lines 89-93) -/

/-- A Python `defaultdict`: a dict together with its `default_factory`
attribute (a callable, or `None`).  The factory is embedded abstractly: the
codec passes it through unchanged. -/
structure PyDefaultDict (α : Type u) (β : Type v) (γ : Type w) where
  entries : List (α × β)
  nodup_keys : (entries.map Prod.fst).Nodup
  default_factory : Option γ

theorem PyDefaultDict.fields_inj {α : Type u} {β : Type v} {γ : Type w}
    {d d' : PyDefaultDict α β γ} (h : d.entries = d'.entries)
    (hf : d.default_factory = d'.default_factory) : d = d' := by
  cases d; cases d'; simp_all

/-- `_serialize_default_dict(obj)
      = (list(obj.keys()), list(obj.values()), obj.default_factory)`. -/
def _serialize_default_dict {α : Type u} {β : Type v} {γ : Type w}
    (obj : PyDefaultDict α β γ) : List α × List β × Option γ :=
  (obj.entries.map Prod.fst, obj.entries.map Prod.snd, obj.default_factory)

/-- `_deserialize_default_dict(data)
      = defaultdict(data[2], zip(data[0], data[1]))`. -/
def _deserialize_default_dict {α : Type u} {β : Type v} {γ : Type w}
    [DecidableEq α] (data : List α × List β × Option γ) : PyDefaultDict α β γ :=
  ⟨dictFromPairs (data.1.zip data.2.1), nodup_map_fst_dictFromPairs _, data.2.2⟩

/-! ### Behaviour of the `OrderedDict` deserializer on unequal-length lists

`_deserialize_ordered_dict` applies `zip`, which silently truncates the
longer list; the entry count of the result is `min` of the lengths only when
the surviving keys are pairwise distinct, since duplicate keys collapse into
a single dict entry. -/

/-! ### Python decimal conversions: `str` on integers, `int` on strings

The `int` codec registered at source lines 67-70 is
`custom_serializer=lambda obj: str(obj)` and
`custom_deserializer=lambda data: int(data)`.  Python's `str` on an integer
produces the decimal digits, preceded by `-` when negative; `int` on a string
parses an optional sign followed by a nonempty run of decimal digits and
raises `ValueError` on anything else (modelled as `none`). -/

/-- Decimal digit characters of a natural number, most significant first. -/
def natDigits (n : Nat) : List Char :=
  if h : n < 10 then [Char.ofNat (48 + n)]
  else natDigits (n / 10) ++ [Char.ofNat (48 + n % 10)]
  termination_by n
  decreasing_by
    exact Nat.div_lt_self (by omega) (by omega)

/-- Value of a decimal digit character, `none` for a non-digit. -/
def digitVal (c : Char) : Option Nat :=
  if 48 ≤ c.toNat ∧ c.toNat ≤ 57 then some (c.toNat - 48) else none

/-- Accumulating decimal parse; fails on the first non-digit. -/
def parseDigitsAux (acc : Nat) : List Char → Option Nat
  | [] => some acc
  | c :: cs =>
    match digitVal c with
    | some d => parseDigitsAux (acc * 10 + d) cs
    | none => none

/-- Parse a nonempty run of decimal digits; `none` on the empty string or on
any non-digit character. -/
def parseDigits : List Char → Option Nat
  | [] => none
  | l => parseDigitsAux 0 l

/-- A Python value handled by the `int` codec: an `int`, or (through the
ancestry walk, `bool` being a subtype of `int`) a `bool`. -/
inductive PyIntLike where
  | int : Int → PyIntLike
  | bool : Bool → PyIntLike
deriving DecidableEq

/-- Python `str` on an `int`-like value: decimal digits with optional `-`
sign for an `int`; `"True"` / `"False"` for a `bool` (class `bool` overrides
`__str__`). -/
def pyStr : PyIntLike → String
  | .int n => if n < 0 then ⟨'-' :: natDigits n.natAbs⟩ else ⟨natDigits n.natAbs⟩
  | .bool b => if b then "True" else "False"

/-- Python `int` applied to a string: optional sign, then a nonempty digit
run; `none` models the `ValueError` raised otherwise. -/
def pyIntOfStr (s : String) : Option Int :=
  match s.data with
  | [] => none
  | c :: cs =>
    if c = '-' then (parseDigits cs).map (fun m => -(m : Int))
    else if c = '+' then (parseDigits cs).map (fun m => (m : Int))
    else (parseDigits (c :: cs)).map (fun m => (m : Int))

/-- The serializer registered for `int`: `lambda obj: str(obj)`. -/
def intSerializer : PyIntLike → String := pyStr

/-- The deserializer registered for `int`: `lambda data: int(data)`. -/
def intDeserializer : String → Option Int := pyIntOfStr

theorem digitVal_ofNat (d : Nat) (h : d < 10) :
    digitVal (Char.ofNat (48 + d)) = some d := by
  interval_cases d <;> decide

theorem char_ofNat_digit_bounds (d : Nat) (h : d < 10) :
    48 ≤ (Char.ofNat (48 + d)).toNat ∧ (Char.ofNat (48 + d)).toNat ≤ 57 := by
  interval_cases d <;> decide

theorem parseDigitsAux_append (l1 l2 : List Char) (acc : Nat) :
    parseDigitsAux acc (l1 ++ l2)
      = (parseDigitsAux acc l1).bind (fun a => parseDigitsAux a l2) := by
  induction l1 generalizing acc with
  | nil => simp [parseDigitsAux]
  | cons c cs ih =>
    simp only [List.cons_append, parseDigitsAux]
    cases digitVal c with
    | none => simp
    | some d => simpa using ih (acc * 10 + d)

theorem natDigits_all_digit (n : Nat) :
    ∀ c ∈ natDigits n, 48 ≤ c.toNat ∧ c.toNat ≤ 57 := by
  induction n using Nat.strong_induction_on with
  | _ n ih =>
    intro c hc
    by_cases h : n < 10
    · rw [natDigits, dif_pos h] at hc
      rw [List.mem_singleton] at hc
      exact hc ▸ char_ofNat_digit_bounds n h
    · rw [natDigits, dif_neg h] at hc
      rcases List.mem_append.mp hc with hc | hc
      · exact ih (n / 10) (Nat.div_lt_self (by omega) (by omega)) c hc
      · rw [List.mem_singleton] at hc
        exact hc ▸ char_ofNat_digit_bounds (n % 10) (Nat.mod_lt n (by omega))

theorem natDigits_ne_nil (n : Nat) : natDigits n ≠ [] := by
  rw [natDigits]
  by_cases h : n < 10
  · rw [dif_pos h]; simp
  · rw [dif_neg h]; simp

theorem parseDigitsAux_natDigits (n : Nat) :
    ∀ acc : Nat, parseDigitsAux acc (natDigits n)
      = some (acc * 10 ^ (natDigits n).length + n) := by
  induction n using Nat.strong_induction_on with
  | _ n ih =>
    intro acc
    by_cases h : n < 10
    · rw [natDigits, dif_pos h]
      simp [parseDigitsAux, digitVal_ofNat n h]
    · have hdiv : n / 10 < n := Nat.div_lt_self (by omega) (by omega)
      rw [natDigits, dif_neg h, parseDigitsAux_append,
        ih (n / 10) hdiv acc]
      simp only [Option.some_bind, parseDigitsAux,
        digitVal_ofNat (n % 10) (Nat.mod_lt n (by omega))]
      rw [List.length_append]
      simp only [List.length_singleton]
      rw [pow_succ, ← mul_assoc]
      congr 1
      have hmod := Nat.div_add_mod n 10
      generalize acc * 10 ^ (natDigits (n / 10)).length = Q
      omega

theorem parseDigits_natDigits (n : Nat) :
    parseDigits (natDigits n) = some n := by
  have hne := natDigits_ne_nil n
  obtain ⟨c, cs, hcons⟩ := List.exists_cons_of_ne_nil hne
  rw [hcons]
  show parseDigitsAux 0 (c :: cs) = some n
  have := parseDigitsAux_natDigits n 0
  rw [hcons] at this
  simpa using this

theorem natDigits_head_not_sign (n : Nat) (c : Char) (cs : List Char)
    (h : natDigits n = c :: cs) : c ≠ '-' ∧ c ≠ '+' := by
  have hd := natDigits_all_digit n c (h ▸ List.mem_cons_self c cs)
  constructor <;> · rintro rfl; revert hd; decide

/-! ### Numpy arrays as uniformly nested lists (the `np.ndarray` list codec,
source lines 38-43)

`obj.tolist()` turns an `n`-dimensional array into nested Python lists of its
elements; `np.array(data, dtype)` rebuilds an array from such a nesting,
inferring the shape from the nesting and failing on a ragged one.  Elements
are embedded abstractly (a fixed dtype's values); the dtype descriptor string
`obj.dtype.str` is carried through unchanged. -/

/-- Nested lists as produced by `ndarray.tolist`. -/
inductive NDList (α : Type u) where
  | scalar : α → NDList α
  | node : List (NDList α) → NDList α

mutual

/-- Whether a nesting is uniform with the given shape: a shape `[]` is a
single scalar, a shape `n :: rest` is a list of `n` nestings of shape
`rest`. -/
def checkShape {α : Type u} : List Nat → NDList α → Bool
  | [], .scalar _ => true
  | n :: rest, .node xs => xs.length == n && checkShapeList rest xs
  | _, _ => false

def checkShapeList {α : Type u} : List Nat → List (NDList α) → Bool
  | _, [] => true
  | s, x :: xs => checkShape s x && checkShapeList s xs

end

/-- The shape numpy infers from a nesting: dimensions are read off the
spine of first children. -/
def inferShape {α : Type u} : NDList α → List Nat
  | .scalar _ => []
  | .node [] => [0]
  | .node (x :: xs) => (xs.length + 1) :: inferShape x

/-- Truncate a shape after its first zero dimension: an empty list carries no
information about deeper dimensions, so numpy infers `[0]` where the original
shape was `0 :: rest`. -/
def normShape : List Nat → List Nat
  | [] => []
  | 0 :: _ => [0]
  | (n + 1) :: rest => (n + 1) :: normShape rest

/-- A numpy `ndarray`: a dtype descriptor string, a shape, and a uniform
nesting of elements of that shape. -/
structure NDArray (α : Type u) where
  dtype : String
  shape : List Nat
  val : NDList α
  hshape : checkShape shape val = true

/-- `np.array(data, dtype=np.dtype(dt))` on a nested list: infer the shape
and check uniformity; a ragged nesting raises (modelled as `none`). -/
def np_array {α : Type u} (v : NDList α) (dt : String) : Option (NDArray α) :=
  if h : checkShape (inferShape v) v = true then
    some ⟨dt, inferShape v, v, h⟩
  else none

/-- `_serialize_numpy_array_list(obj) = (obj.tolist(), obj.dtype.str)`. -/
def _serialize_numpy_array_list {α : Type u} (obj : NDArray α) :
    NDList α × String :=
  (obj.val, obj.dtype)

/-- `_deserialize_numpy_array_list(data)
      = np.array(data[0], dtype=np.dtype(data[1]))`. -/
def _deserialize_numpy_array_list {α : Type u} (data : NDList α × String) :
    Option (NDArray α) :=
  np_array data.1 data.2

theorem checkShapeList_iff_all {α : Type u} (s : List Nat)
    (xs : List (NDList α)) :
    checkShapeList s xs = true ↔ ∀ x ∈ xs, checkShape s x = true := by
  induction xs with
  | nil => simp [checkShapeList]
  | cons x t ih =>
    simp only [checkShapeList, Bool.and_eq_true, ih, List.mem_cons]
    constructor
    · rintro ⟨h1, h2⟩ y (rfl | hy)
      · exact h1
      · exact h2 y hy
    · intro h
      exact ⟨h x (Or.inl rfl), fun y hy => h y (Or.inr hy)⟩

theorem inferShape_eq_normShape {α : Type u} (s : List Nat) (v : NDList α)
    (h : checkShape s v = true) : inferShape v = normShape s := by
  induction s generalizing v with
  | nil =>
    cases v with
    | scalar a => rfl
    | node xs => simp [checkShape] at h
  | cons n rest ih =>
    cases v with
    | scalar a => simp [checkShape] at h
    | node xs =>
      simp only [checkShape, Bool.and_eq_true, beq_iff_eq] at h
      obtain ⟨hlen, hall⟩ := h
      cases xs with
      | nil =>
        subst hlen
        rfl
      | cons x t =>
        subst hlen
        show (t.length + 1) :: inferShape x = normShape ((t.length + 1) :: rest)
        rw [show normShape ((t.length + 1) :: rest) = (t.length + 1) :: normShape rest from rfl]
        congr 1
        exact ih x ((checkShapeList_iff_all rest (x :: t)).mp hall x (by simp))

theorem checkShape_normShape {α : Type u} (s : List Nat) (v : NDList α)
    (h : checkShape s v = true) : checkShape (normShape s) v = true := by
  induction s generalizing v with
  | nil => exact h
  | cons n rest ih =>
    cases v with
    | scalar a => simp [checkShape] at h
    | node xs =>
      simp only [checkShape, Bool.and_eq_true, beq_iff_eq] at h
      obtain ⟨hlen, hall⟩ := h
      cases n with
      | zero =>
        have : xs = [] := List.length_eq_zero.mp hlen
        subst this
        rfl
      | succ m =>
        show checkShape ((m + 1) :: normShape rest) (.node xs) = true
        simp only [checkShape, Bool.and_eq_true, beq_iff_eq]
        refine ⟨hlen, ?_⟩
        rw [checkShapeList_iff_all] at hall ⊢
        exact fun x hx => ih x (hall x hx)

/-! ### The serialization registry

`SerializationContext` lives in `pyarrow.lib`, outside this repository's
source file; only its callers are here.  It is modelled from the spec
(sections 3, 4.1, 4.2, 4.4): a registry is an insertion-ordered mapping from
runtime type identity to a (TypeTag, Codec) entry; `register_type` inserts or
replaces the entry for a type (last registration wins); `clone` produces a
full independent copy; serialization dispatch looks for an exact type match
and otherwise walks the type's ancestry most-specific-to-least-specific;
deserialization looks up strictly by tag and fails on an unregistered tag.
Contexts are held in a store and addressed by references so that mutation and
aliasing are explicit.  The embedded environment is Python 3 with pandas
importable and torch not importable (the `sys.version_info` and
`import torch` branches of the source register nothing). -/

/-- Modelled from the spec: runtime type identities occurring in the source's
registrations, plus `bool` (an unregistered subtype of `int`), an
unregistered subclass of `np.ndarray`, and the common base `object`. -/
inductive PyType where
  | pyInt
  | pyBool
  | pyOrderedDict
  | pyDefaultdict
  | pyFunction
  | pyTypeType
  | npNdarray
  | npNdarraySub
  | pdSeries
  | pdDataFrame
  | pdIndex
  | pyObject
deriving DecidableEq

/-- The codec function pairs the source registers, named by their serializer. -/
inductive CodecId where
  | strInt
  | odList
  | ddList
  | cloudpickleCodec
  | npArrayList
  | npArrayPickle
  | arrowPandasSeries
  | arrowPandasDataFrame
  | customPandasSeries
  | customPandasDataFrame
  | pickleBuffer
deriving DecidableEq

/-- Modelled from the spec: a RegistrationEntry's tag and codec (the type it
is registered for is the key it is stored under). -/
structure RegEntry where
  tag : String
  codec : CodecId
deriving DecidableEq

/-- Modelled from the spec: a SerializationContext's registry, an
insertion-ordered mapping from type identity to entry. -/
abbrev Ctx := List (PyType × RegEntry)

/-- Modelled from the spec: exact-match lookup of a type's entry. -/
def ctxFind (c : Ctx) (t : PyType) : Option RegEntry :=
  (c.find? (fun p => decide (p.1 = t))).map Prod.snd

/-- Modelled from the spec: a type's ancestry, most specific first.  `bool`
is a subtype of `int`; the unregistered subclass `npNdarraySub` is a subtype
of `np.ndarray`; every type ends at `object`. -/
def mro : PyType → List PyType
  | .pyBool => [.pyBool, .pyInt, .pyObject]
  | .npNdarraySub => [.npNdarraySub, .npNdarray, .pyObject]
  | .pyObject => [.pyObject]
  | t => [t, .pyObject]

/-- Modelled from the spec: serialization dispatch — the first registered
type along the value's ancestry (exact match first), `none` when no entry
matches (the caller then falls back to the context's generic pickle codec). -/
def resolveEntry (c : Ctx) (t : PyType) : Option RegEntry :=
  (mro t).findSome? (ctxFind c)

/-- Modelled from the spec: deserialization lookup, strictly by tag (exact
string match, no ancestry walk); with duplicate tags the last registration
wins. -/
def ctxFindTag (c : Ctx) (tag : String) : Option (PyType × CodecId) :=
  (c.reverse.find? (fun p => decide (p.2.tag = tag))).map (fun p => (p.1, p.2.codec))

/-- Deserialization failure kinds. -/
inductive SerError where
  | unregisteredTag : String → SerError
deriving DecidableEq

/-- Modelled from the spec: deserialize's codec lookup; a tag never
registered in this context is a fatal `unregisteredTag` error surfaced to the
caller. -/
def deserializeDispatch (c : Ctx) (tag : String) :
    Except SerError (PyType × CodecId) :=
  match ctxFindTag c tag with
  | none => .error (.unregisteredTag tag)
  | some e => .ok e

/-- Modelled from the spec: the store of live context objects, addressed by
references, so that mutating one context is visibly local to it. -/
structure Store where
  ctxs : List Ctx

/-- The registry a reference currently denotes. -/
def Store.get (s : Store) (r : Nat) : Ctx :=
  s.ctxs.getD r []

/-- Modelled from the spec: `context.register_type(type, tag, serializer,
deserializer)` — inserts or replaces the entry for that type in that context
only. -/
def Store.register_type (s : Store) (r : Nat) (t : PyType) (tag : String)
    (c : CodecId) : Store :=
  ⟨s.ctxs.set r (dictInsertPair (s.get r) (t, ⟨tag, c⟩))⟩

/-- Modelled from the spec: `context.clone()` — allocates a new context whose
registry is a full independent copy of the current entries. -/
def Store.clone (s : Store) (r : Nat) : Store × Nat :=
  (⟨s.ctxs ++ [s.get r]⟩, s.ctxs.length)

/-! The module-level script of `serialization.py`, replayed on the store. -/

/-- `register_default_serialization_handlers(serialization_context)` (source
lines 59-135): `int`, `OrderedDict`, `defaultdict`, `function`, `type`,
`np.ndarray`; the Python-2 `long` branch and the torch branch register
nothing in the embedded environment. -/
def register_default_serialization_handlers (s : Store) (r : Nat) : Store :=
  (((((s.register_type r .pyInt "int" .strInt).register_type
    r .pyOrderedDict "OrderedDict" .odList).register_type
    r .pyDefaultdict "defaultdict" .ddList).register_type
    r .pyFunction "function" .cloudpickleCodec).register_type
    r .pyTypeType "type" .cloudpickleCodec).register_type
    r .npNdarray "np.array" .npArrayList

/-- `_register_pandas_arrow_handlers(context)` (source lines 148-175). -/
def _register_pandas_arrow_handlers (s : Store) (r : Nat) : Store :=
  (s.register_type r .pdSeries "pd.Series" .arrowPandasSeries).register_type
    r .pdDataFrame "pd.DataFrame" .arrowPandasDataFrame

/-- `_register_custom_pandas_handlers(context)` (source lines 178-214). -/
def _register_custom_pandas_handlers (s : Store) (r : Nat) : Store :=
  ((s.register_type r .pdSeries "pd.Series" .customPandasSeries).register_type
    r .pdIndex "pd.Index" .pickleBuffer).register_type
    r .pdDataFrame "pd.DataFrame" .customPandasDataFrame

/-- The module-level statements of `serialization.py` in order (source lines
138, 145, 217, 218, 221-224): register the default handlers on the
pre-existing default context, clone it, register the arrow pandas handlers on
the default context, the custom pandas handlers on the clone, and finally
re-register `np.ndarray` on the clone with the pickle codec.  Returns the
final store and the references of the two contexts. -/
def moduleInit : Store × Nat × Nat :=
  let s0 : Store := ⟨[[]]⟩
  let s1 := register_default_serialization_handlers s0 0
  let cl := s1.clone 0
  let s3 := _register_pandas_arrow_handlers cl.1 0
  let s4 := _register_custom_pandas_handlers s3 cl.2
  let s5 := s4.register_type cl.2 .npNdarray "np.array" .npArrayPickle
  (s5, 0, cl.2)

/-- `_default_serialization_context` as it stands at the end of the module. -/
def _default_serialization_context : Ctx :=
  moduleInit.1.get moduleInit.2.1

/-- `pandas_serialization_context` as it stands at the end of the module. -/
def pandas_serialization_context : Ctx :=
  moduleInit.1.get moduleInit.2.2

/-! ### Registry lemmas -/

theorem find?_map_replace {α : Type u} {β : Type v} [DecidableEq α]
    (m : List (α × β)) (k : α) (v : β)
    (hany : m.any (fun q => decide (q.1 = k)) = true) :
    (m.map (fun q => if q.1 = k then (k, v) else q)).find?
      (fun p => decide (p.1 = k)) = some (k, v) := by
  induction m with
  | nil => simp at hany
  | cons q t ih =>
    simp only [List.map_cons]
    by_cases hq : q.1 = k
    · rw [if_pos hq, List.find?_cons_of_pos _ (by simp)]
    · rw [if_neg hq, List.find?_cons_of_neg _ (by simp [hq])]
      apply ih
      simpa [hq] using hany

theorem find?_dictInsertPair_self {α : Type u} {β : Type v} [DecidableEq α]
    (m : List (α × β)) (k : α) (v : β) :
    (dictInsertPair m (k, v)).find? (fun p => decide (p.1 = k)) = some (k, v) := by
  unfold dictInsertPair
  by_cases hany : m.any (fun q => decide (q.1 = (k, v).1)) = true
  · rw [if_pos hany]
    exact find?_map_replace m k v hany
  · rw [if_neg hany, List.find?_append]
    have hnone : m.find? (fun p => decide (p.1 = k)) = none := by
      rw [List.find?_eq_none]
      intro x hx
      simp only [decide_eq_true_eq]
      intro hxk
      exact hany (by
        simp only [List.any_eq_true, decide_eq_true_eq]
        exact ⟨x, hx, hxk⟩)
    rw [hnone]
    simp

theorem findSome?_of_find?_isSome {α : Type u} {β : Type v}
    (f : α → Option β) (l : List α) (s : α)
    (h : l.find? (fun a => (f a).isSome) = some s) :
    l.findSome? f = f s := by
  induction l with
  | nil => simp at h
  | cons a t ih =>
    by_cases ha : (f a).isSome
    · rw [List.find?_cons_of_pos _ (by simpa using ha)] at h
      obtain rfl : a = s := by simpa using h
      obtain ⟨b, hb⟩ := Option.isSome_iff_exists.mp ha
      rw [List.findSome?_cons, hb]
    · rw [List.find?_cons_of_neg _ (by simpa using ha)] at h
      have hfa : f a = none := Option.not_isSome_iff_eq_none.mp ha
      rw [List.findSome?_cons, hfa]
      exact ih h

theorem resolveEntry_of_exact (c : Ctx) (t : PyType) (e : RegEntry)
    (h : ctxFind c t = some e) : resolveEntry c t = some e := by
  obtain ⟨rest, hrest⟩ : ∃ rest, mro t = t :: rest := by
    cases t <;> exact ⟨_, rfl⟩
  rw [resolveEntry, hrest, List.findSome?_cons, h]

theorem Store.get_register_type_ne (s : Store) (r r' : Nat) (t : PyType)
    (tag : String) (cd : CodecId) (h : r ≠ r') :
    (s.register_type r' t tag cd).get r = s.get r := by
  unfold Store.register_type Store.get
  simp only [List.getD_eq_getElem?_getD]
  rw [List.getElem?_set_ne (Ne.symm h)]

/-! ### The claims

Each claim of the specification is settled by one theorem below. -/

/-- C1: For every OrderedDict value, serializing with the registered
OrderedDict codec (keys list, values list) and then deserializing yields an
OrderedDict with the same keys in the same insertion order and the same
values; in particular serializing `{"a":1, "b":2}` then deserializing yields
key order `["a","b"]` and values `[1,2]`. -/
theorem ordered_dict_codec_round_trip :
    (∀ {α : Type u} {β : Type v} [DecidableEq α] (d : PyDict α β),
      _deserialize_ordered_dict (_serialize_ordered_dict d) = d) ∧
    (_deserialize_ordered_dict (_serialize_ordered_dict exampleOrderedDict)).keys
        = ["a", "b"] ∧
    (_deserialize_ordered_dict (_serialize_ordered_dict exampleOrderedDict)).values
        = [1, 2] := by
  refine ⟨fun d => deserialize_serialize_ordered_dict d, ?_, ?_⟩ <;>
    rw [deserialize_serialize_ordered_dict] <;> decide

/-- C3: For every numpy ndarray a, applying the registered np.ndarray list
codec's deserializer to its serializer's output
(`_deserialize_numpy_array_list(_serialize_numpy_array_list(a))`) yields an
array element-wise equal to a with the same dtype. -/
theorem numpy_array_list_codec_round_trip {α : Type u} (a : NDArray α) :
    ∃ b : NDArray α,
      _deserialize_numpy_array_list (_serialize_numpy_array_list a) = some b ∧
      b.val = a.val ∧ b.dtype = a.dtype := by
  have h2 : checkShape (inferShape a.val) a.val = true := by
    rw [inferShape_eq_normShape a.shape a.val a.hshape]
    exact checkShape_normShape a.shape a.val a.hshape
  refine ⟨⟨a.dtype, inferShape a.val, a.val, h2⟩, ?_, rfl, rfl⟩
  unfold _deserialize_numpy_array_list _serialize_numpy_array_list np_array
  rw [dif_pos h2]

/-- C7: For every Python int n (including arbitrarily large ones), applying
the registered int codec's deserializer to its serializer's output (`int`
applied to `str(n)`) yields a value exactly equal to n. -/
theorem int_codec_round_trip (n : Int) :
    intDeserializer (intSerializer (.int n)) = some n := by
  have hser : intSerializer (.int n)
      = if n < 0 then ⟨'-' :: natDigits n.natAbs⟩ else ⟨natDigits n.natAbs⟩ := rfl
  rw [hser]
  by_cases hn : n < 0
  · rw [if_pos hn]
    show pyIntOfStr ⟨'-' :: natDigits n.natAbs⟩ = some n
    have hred : pyIntOfStr ⟨'-' :: natDigits n.natAbs⟩
        = (parseDigits (natDigits n.natAbs)).map (fun m => -(m : Int)) := by
      simp [pyIntOfStr]
    rw [hred, parseDigits_natDigits]
    show some (-(n.natAbs : Int)) = some n
    congr 1
    omega
  · rw [if_neg hn]
    obtain ⟨c, cs, hcons⟩ := List.exists_cons_of_ne_nil (natDigits_ne_nil n.natAbs)
    obtain ⟨hc1, hc2⟩ := natDigits_head_not_sign n.natAbs c cs hcons
    show pyIntOfStr ⟨natDigits n.natAbs⟩ = some n
    rw [hcons]
    have hred : pyIntOfStr ⟨c :: cs⟩
        = (parseDigits (c :: cs)).map (fun m => (m : Int)) := by
      simp [pyIntOfStr, hc1, hc2]
    rw [hred, ← hcons, parseDigits_natDigits]
    show some ((n.natAbs : Int)) = some n
    congr 1
    omega

/-- C8: For every defaultdict d, applying the registered defaultdict codec's
deserializer to its serializer's output (keys list, values list,
default_factory) yields a defaultdict with the same key-value mapping and the
same default_factory as d. -/
theorem default_dict_codec_round_trip {α : Type u} {β : Type v} {γ : Type w}
    [DecidableEq α] (d : PyDefaultDict α β γ) :
    _deserialize_default_dict (_serialize_default_dict d) = d := by
  apply PyDefaultDict.fields_inj
  · unfold _deserialize_default_dict _serialize_default_dict
    simp only
    rw [List.zip_map']
    simpa using dictFromPairs_of_nodup d.entries d.nodup_keys
  · rfl

/-- C10 counterexample: keys `["a","a","b"]` and values `[1,2]` have unequal
lengths, yet the deserialized OrderedDict has 1 entry, not
`min 3 2 = 2`: the duplicate key `"a"` collapses. -/
theorem ordered_dict_deserialize_min_len_counterexample :
    (["a", "a", "b"] : List String).length ≠ ([1, 2] : List Nat).length ∧
    (_deserialize_ordered_dict ((["a", "a", "b"] : List String), ([1, 2] : List Nat))).entries.length ≠
      min (["a", "a", "b"] : List String).length ([1, 2] : List Nat).length := by
  constructor
  · decide
  · show (dictFromPairs ((["a", "a", "b"] : List String).zip ([1, 2] : List Nat))).length ≠ _
    decide

/-- C10 (amended): For every pair of lists (ks, vs) of unequal lengths, the
OrderedDict codec's deserializer applied to (ks, vs) does not fail: it
silently truncates to the shorter list (zip semantics), returning the
OrderedDict built from the first `min (len ks) (len vs)` key-value pairs;
when those truncated keys are pairwise distinct, the result has exactly
`min (len ks) (len vs)` entries (duplicate keys collapse further). -/
theorem ordered_dict_deserialize_truncates {α : Type u} {β : Type v}
    [DecidableEq α] (ks : List α) (vs : List β)
    (_hne : ks.length ≠ vs.length) :
    _deserialize_ordered_dict (ks, vs) =
      _deserialize_ordered_dict
        (ks.take (min ks.length vs.length), vs.take (min ks.length vs.length)) ∧
    ((ks.take (min ks.length vs.length)).Nodup →
      (_deserialize_ordered_dict (ks, vs)).entries.length
        = min ks.length vs.length) := by
  constructor
  · apply PyDict.entries_inj
    unfold _deserialize_ordered_dict PyDict.fromPairs
    simp only
    rw [← List.zip_eq_zip_take_min]
  · intro hnd
    unfold _deserialize_ordered_dict PyDict.fromPairs
    simp only
    have hzip : ks.zip vs
        = (ks.take (min ks.length vs.length)).zip
            (vs.take (min ks.length vs.length)) :=
      List.zip_eq_zip_take_min ks vs
    have hlen : (ks.take (min ks.length vs.length)).length
        ≤ (vs.take (min ks.length vs.length)).length := by
      simp [List.length_take, min_assoc, min_comm, min_left_comm]
    have hfst : ((ks.zip vs).map Prod.fst).Nodup := by
      rw [hzip, List.map_fst_zip _ _ hlen]
      exact hnd
    rw [dictFromPairs_of_nodup _ hfst, List.length_zip]

/-- Witness for the amended C10 at keys `["a","b","c"]` and values `[1,2]`. -/
theorem ordered_dict_deserialize_truncates_witness :
    (_deserialize_ordered_dict ((["a", "b", "c"] : List String), ([1, 2] : List Nat))).entries.length
      = min (["a", "b", "c"] : List String).length ([1, 2] : List Nat).length :=
  (ordered_dict_deserialize_truncates (["a", "b", "c"] : List String)
    ([1, 2] : List Nat) (by decide)).2 (by decide)

/-- C2: For the base context C (`_default_serialization_context`) and its
clone C' (`pandas_serialization_context`), every registration or codec
override performed on C' (re-registering np.ndarray with the pickle-based
codec, registering pd.Index) leaves C's registry and dispatch results
unchanged, and registrations on C after the clone leave C' unchanged:
registering through one reference never touches the registry behind another,
C's final registry is exactly what C's own registrations alone produce, C
still dispatches np.ndarray to the list codec while C' dispatches it to the
pickle codec, C has no entry for the tag "pd.Index", and C dispatches
pd.Series to the arrow codec registered on C after the clone while C'
dispatches it to its own custom codec. -/
theorem clone_isolation :
    (∀ (s : Store) (r r' : Nat) (t : PyType) (tag : String) (cd : CodecId),
        r ≠ r' → (Store.register_type s r' t tag cd).get r = s.get r) ∧
    _default_serialization_context
      = (_register_pandas_arrow_handlers
          (register_default_serialization_handlers ⟨[[]]⟩ 0) 0).get 0 ∧
    resolveEntry _default_serialization_context .npNdarray
      = some ⟨"np.array", .npArrayList⟩ ∧
    resolveEntry pandas_serialization_context .npNdarray
      = some ⟨"np.array", .npArrayPickle⟩ ∧
    ctxFindTag _default_serialization_context "pd.Index" = none ∧
    resolveEntry _default_serialization_context .pdSeries
      = some ⟨"pd.Series", .arrowPandasSeries⟩ ∧
    resolveEntry pandas_serialization_context .pdSeries
      = some ⟨"pd.Series", .customPandasSeries⟩ :=
  ⟨Store.get_register_type_ne, by decide, by decide, by decide, by decide,
    by decide, by decide⟩

/-- Witness for C2's isolation at the final store: registering `pd.Index` on
the pandas context leaves the default context's registry unchanged. -/
theorem clone_isolation_witness :
    (Store.register_type moduleInit.1 moduleInit.2.2 .pdIndex "pd.Index"
        .pickleBuffer).get moduleInit.2.1
      = moduleInit.1.get moduleInit.2.1 :=
  clone_isolation.1 moduleInit.1 moduleInit.2.1 moduleInit.2.2 .pdIndex
    "pd.Index" .pickleBuffer (by decide)

/-- C4: Registering a codec for a (type, tag) pair already present in a
context replaces the existing entry (last registration wins): in general a
lookup after an insertion returns the inserted entry, and concretely, after
`pandas_serialization_context` re-registers np.ndarray under tag "np.array"
with the pickle-based codec, that context's entry for np.ndarray is the
pickle-based codec and not the list-based codec inherited from the clone. -/
theorem registration_overwrites :
    (∀ (c : Ctx) (t : PyType) (e : RegEntry),
        ctxFind (dictInsertPair c (t, e)) t = some e) ∧
    ctxFind pandas_serialization_context .npNdarray
      = some ⟨"np.array", .npArrayPickle⟩ ∧
    ctxFind pandas_serialization_context .npNdarray
      ≠ some ⟨"np.array", .npArrayList⟩ := by
  refine ⟨?_, by decide, by decide⟩
  intro c t e
  unfold ctxFind
  rw [find?_dictInsertPair_self]
  rfl

/-- C5: For every context and every TypeTag string not registered in that
context (e.g., the tag "pd.Index", registered only in
`pandas_serialization_context`, presented to the default context),
deserialize fails with an unregistered-tag error surfaced to the caller and
never silently returns a value. -/
theorem unregistered_tag_fails :
    (∀ (c : Ctx) (tag : String), ctxFindTag c tag = none →
        deserializeDispatch c tag = .error (.unregisteredTag tag)) ∧
    ctxFindTag _default_serialization_context "pd.Index" = none ∧
    ctxFindTag pandas_serialization_context "pd.Index"
      = some (.pdIndex, .pickleBuffer) := by
  refine ⟨?_, by decide, by decide⟩
  intro c tag h
  unfold deserializeDispatch
  rw [h]

/-- Witness for C5 at the default context and the tag "pd.Index". -/
theorem unregistered_tag_fails_witness :
    deserializeDispatch _default_serialization_context "pd.Index"
      = .error (.unregisteredTag "pd.Index") :=
  unregistered_tag_fails.1 _default_serialization_context "pd.Index" (by decide)

/-- C6: For every registered supertype S and every value whose runtime type
is an unregistered subtype of S, serialization dispatches to S's codec: exact
type match is tried first, then the type's ancestry is walked
most-specific-to-least-specific and the first registered ancestor's entry is
used; concretely the unregistered np.ndarray subclass dispatches to the
np.ndarray list codec in the default context. -/
theorem ancestry_dispatch :
    (∀ (c : Ctx) (t : PyType) (e : RegEntry),
        ctxFind c t = some e → resolveEntry c t = some e) ∧
    (∀ (c : Ctx) (u s : PyType) (anc : List PyType),
        mro u = u :: anc → ctxFind c u = none →
        anc.find? (fun a => (ctxFind c a).isSome) = some s →
        resolveEntry c u = ctxFind c s) ∧
    ctxFind _default_serialization_context .npNdarraySub = none ∧
    resolveEntry _default_serialization_context .npNdarraySub
      = some ⟨"np.array", .npArrayList⟩ := by
  refine ⟨resolveEntry_of_exact, ?_, by decide, by decide⟩
  intro c u s anc hmro hmiss hfind
  rw [resolveEntry, hmro, List.findSome?_cons, hmiss]
  exact findSome?_of_find?_isSome (ctxFind c) anc s hfind

/-- Witness for C6's ancestry walk at the unregistered np.ndarray subclass in
the default context. -/
theorem ancestry_dispatch_witness :
    resolveEntry _default_serialization_context .npNdarraySub
      = ctxFind _default_serialization_context .npNdarray :=
  ancestry_dispatch.2.1 _default_serialization_context .npNdarraySub
    .npNdarray [.npNdarray, .pyObject] rfl (by decide) (by decide)

/-- C9: For every bool input b (bool being a subtype of int that the ancestry
walk routes to the "int" codec), composing the int codec's serializer and
deserializer raises an error rather than round-tripping, because
`int(str(True)) = int("True")` is not a parseable integer literal. -/
theorem bool_int_codec_fails :
    resolveEntry _default_serialization_context .pyBool
      = some ⟨"int", .strInt⟩ ∧
    ∀ b : Bool, intDeserializer (intSerializer (.bool b)) = none :=
  ⟨by decide, by decide⟩
